import Mathlib

/-!
Verification development for the multi-hop retrieval orchestrator of the
puppygraph agents repository (src/server/agents/multi_hop_agent.py).

The module is embedded shallowly:

* `GraphNode`, `GraphEdge`, `MultiHopResult` mirror the dataclasses of the
  Python module; property maps are association lists of scalar values.
* A hop record (a Python dict) becomes `HopOutcome` with `Option` fields:
  the success path stores cypher_query, reasoning and the two counts, while
  the failure path stores only the error, so absent dict keys are `none`.
* The external collaborators (the DSPy planner, the per-step cypher
  generator and the result analyzer) and the graph query backend are
  modelled as oracle functions collected in `Env`; a call that raises an
  exception is an `Except.error`.  The generator and backend oracles take
  the index of the call so that a stateful collaborator can answer each
  call differently.  The planner oracle returns the plan field already
  stripped and passed through json.loads: `Except.error` stands for the
  JSONDecodeError / AttributeError branch of the source, `Except.ok` holds
  the parsed JSON value.
* Wall-clock time is modelled by `startTime` (datetime.now() at entry) and
  `endTime` (datetime.now() sampled before the result record is built).
* `process_complex_queryT` additionally returns a ghost trace
  (`List StepLog`) recording, per executed step, the generator call that
  was made and the nodes/edges the step contributed; the returned
  `MultiHopResult` itself is computed exactly as in the source.
-/

/-- JSON values, as json.loads returns them (plan parsing). -/
inductive Json where
  | null : Json
  | bool : Bool → Json
  | num : Int → Json
  | str : String → Json
  | arr : List Json → Json
  | obj : List (String × Json) → Json

/-- Scalar property values of graph nodes and edges. -/
inductive PropVal where
  | str : String → PropVal
  | num : Int → PropVal
deriving DecidableEq, Repr

/-- dataclass GraphNode of multi_hop_agent.py. -/
structure GraphNode where
  id : String
  label : String
  properties : List (String × PropVal)
deriving DecidableEq, Repr

/-- dataclass GraphEdge of multi_hop_agent.py. -/
structure GraphEdge where
  id : String
  from_id : String
  to_id : String
  label : String
  properties : List (String × PropVal)
deriving DecidableEq, Repr

/-- One entry of the hop_results list: a Python dict whose keys differ
between the success path (step_number, description, cypher_query,
reasoning, nodes_found, edges_found) and the per-step failure path
(step_number, description, error).  A key the path does not write is
`none`. -/
structure HopOutcome where
  step_number : Nat
  description : Json
  cypher_query : Option String
  reasoning : Option String
  nodes_found : Option Nat
  edges_found : Option Nat
  error : Option String

/-- dataclass MultiHopResult of multi_hop_agent.py.  execution_time is in
abstract clock ticks (the Python float of seconds). -/
structure MultiHopResult where
  query : String
  reasoning : String
  hops : List HopOutcome
  final_nodes : List GraphNode
  final_edges : List GraphEdge
  execution_time : Nat
  cypher_queries : List String
  error : Option String

/-- Output fields of the CypherGeneration signature. -/
structure GenOutput where
  cypher_query : String
  reasoning : String
deriving DecidableEq, Repr

/-- Output fields of the ResultAnalysis signature. -/
structure AnalysisOutput where
  answer : String
  completeness : String
  missing_info : String
deriving DecidableEq, Repr

/-- Outcome of the planner call: the plan field after markdown stripping
and json.loads (`Except.error` = JSONDecodeError or AttributeError), and
the reasoning field. -/
structure PlannerOutput where
  plan : Except String Json
  reasoning : String

/-- The external collaborators of one orchestrated call, plus the clock.
`cypher_generator j d p t` is the DSPy generator at call index j with
step_description d, previous_results p and target_entities t;
`execute_cypher_step j q` is the graph query backend at call index j.
The backend in the repository is the pattern-matching simulation
`execute_cypher_step_sim` below (a total function); the oracle form also
admits the failing backend the spec describes for the Graph Query Port. -/
structure Env where
  planner : String → String → Except String PlannerOutput
  cypher_generator : Nat → Json → String → Json → Except String GenOutput
  execute_cypher_step : Nat → String → Except String (List GraphNode × List GraphEdge)
  result_analyzer : String → String → Except String AnalysisOutput
  startTime : Nat
  endTime : Nat

/-! ## JSON serialization of accumulated results

The source serializes the accumulated nodes and edges with
json.dumps({"nodes": [_node_to_dict(n) ...], "edges": [_edge_to_dict(e) ...]}).
Since the dict shapes are fixed, the composition of _node_to_dict /
_edge_to_dict with json.dumps (default separators) is embedded directly as
string builders. -/

def escapeChar (c : Char) : String :=
  if c = '\\' then "\\\\" else if c = '"' then "\\\"" else String.singleton c

def escape (s : String) : String := String.join (s.toList.map escapeChar)

def dumpStr (s : String) : String := "\"" ++ escape s ++ "\""

def dumpPropVal : PropVal → String
  | .str s => dumpStr s
  | .num n => toString n

def joinComma : List String → String
  | [] => ""
  | [s] => s
  | s :: rest => s ++ ", " ++ joinComma rest

def dumpProps (props : List (String × PropVal)) : String :=
  joinComma (props.map fun kv => dumpStr kv.1 ++ ": " ++ dumpPropVal kv.2)

/-- json.dumps of _node_to_dict. -/
def dumpNode (n : GraphNode) : String :=
  "\x7b\"id\": " ++ dumpStr n.id ++ ", \"label\": " ++ dumpStr n.label ++
  ", \"properties\": \x7b" ++ dumpProps n.properties ++ "\x7d\x7d"

/-- json.dumps of _edge_to_dict. -/
def dumpEdge (e : GraphEdge) : String :=
  "\x7b\"id\": " ++ dumpStr e.id ++ ", \"from_id\": " ++ dumpStr e.from_id ++
  ", \"to_id\": " ++ dumpStr e.to_id ++ ", \"label\": " ++ dumpStr e.label ++
  ", \"properties\": \x7b" ++ dumpProps e.properties ++ "\x7d\x7d"

/-- json.dumps of the nodes/edges dict built at lines 173-176 and 215-218. -/
def dumpResults (nodes : List GraphNode) (edges : List GraphEdge) : String :=
  "\x7b\"nodes\": [" ++ joinComma (nodes.map dumpNode) ++
  "], \"edges\": [" ++ joinComma (edges.map dumpEdge) ++ "]\x7d"

/-! ## The simulated backend (_execute_cypher_step of the source) -/

def isPrefixOfCL : List Char → List Char → Bool
  | [], _ => true
  | _ :: _, [] => false
  | c :: cs, d :: ds => c = d && isPrefixOfCL cs ds

def containsAux (pat : List Char) : List Char → Bool
  | [] => isPrefixOfCL pat []
  | c :: cs => isPrefixOfCL pat (c :: cs) || containsAux pat cs

/-- Python substring containment (pat in s). -/
def containsSub (s pat : String) : Bool := containsAux pat.toList s.toList

def company_1 : GraphNode :=
  ⟨"company_1", "Company",
   [("name", .str "Goldman Sachs Group Inc"), ("sector", .str "Financial Services"),
    ("ticker", .str "GS")]⟩

def person_1 : GraphNode :=
  ⟨"person_1", "Person",
   [("name", .str "David M. Solomon"), ("title", .str "CEO"), ("age", .num 62)]⟩

def emp_1 : GraphEdge :=
  ⟨"emp_1", "person_1", "company_1", "EMPLOYED_BY",
   [("position", .str "Chief Executive Officer")]⟩

def rating_1 : GraphNode :=
  ⟨"rating_1", "Rating",
   [("rating", .str "A+"), ("rating_agency", .str "S&P Global"),
    ("rating_type", .str "Long-term Credit")]⟩

def rating_edge_1 : GraphEdge :=
  ⟨"rating_edge_1", "company_1", "rating_1", "HAS_RATING", []⟩

/-- _execute_cypher_step of the source: simulate query execution by pattern
matching on the lowercased query string.  Total: the simulation never
raises. -/
def execute_cypher_step_sim (cypher_query : String) :
    List GraphNode × List GraphEdge :=
  let ql := cypher_query.toLower
  let nodes : List GraphNode := []
  let edges : List GraphEdge := []
  let p1 := if containsSub ql "company" && containsSub ql "financial services"
    then (nodes ++ [company_1], edges) else (nodes, edges)
  let p2 := if containsSub ql "person" && containsSub ql "ceo"
    then (p1.1 ++ [person_1], p1.2 ++ [emp_1]) else p1
  let p3 := if containsSub ql "rating"
    then (p2.1 ++ [rating_1], p2.2 ++ [rating_edge_1]) else p2
  p3

/-! ## Node deduplication (_deduplicate_nodes of the source) -/

/-- The loop of _deduplicate_nodes: seen_ids is the set of ids already
kept, unique_nodes the output list built so far. -/
def dedupAux : List String → List GraphNode → List GraphNode → List GraphNode
  | _, unique_nodes, [] => unique_nodes
  | seen_ids, unique_nodes, node :: rest =>
    if node.id ∈ seen_ids then dedupAux seen_ids unique_nodes rest
    else dedupAux (seen_ids ++ [node.id]) (unique_nodes ++ [node]) rest

/-- _deduplicate_nodes: remove duplicate nodes based on id, first
occurrence wins. -/
def deduplicate_nodes (nodes : List GraphNode) : List GraphNode :=
  dedupAux [] [] nodes

/-! ## Plan parsing helpers -/

def Json.isObj : Json → Bool
  | .obj _ => true
  | _ => false

def Json.isArr : Json → Bool
  | .arr _ => true
  | _ => false

def lookupField : List (String × Json) → String → Option Json
  | [], _ => none
  | (k, v) :: rest, key => if k = key then some v else lookupField rest key

/-- Message of the AttributeError raised when step.get is called on a
parsed plan element that is not a dict. -/
def attrErrMsg : String := "AttributeError: object has no attribute get"

/-- Python step.get(key, dflt): a dict returns the stored value or the
default and never raises; any other value raises AttributeError. -/
def Json.get (j : Json) (key : String) (dflt : Json) : Except String Json :=
  match j with
  | .obj fields =>
    Except.ok (match lookupField fields key with
      | some v => v
      | none => dflt)
  | _ => Except.error attrErrMsg

/-! ## The step-execution loop (lines 162-212 of the source) -/

/-- The four locals mutated by the loop: all_nodes, all_edges,
hop_results, cypher_queries. -/
structure LoopState where
  all_nodes : List GraphNode
  all_edges : List GraphEdge
  hop_results : List HopOutcome
  cypher_queries : List String

def emptyState : LoopState := ⟨[], [], [], []⟩

/-- Ghost record of one generator invocation: call index and the three
input fields passed. -/
structure GenCall where
  callIndex : Nat
  step_description : Json
  previous_results : String
  target_entities : Json

/-- Ghost trace of one executed step: the generator call made (none when
step.get raised first), the generator output when it succeeded, and the
nodes/edges the step contributed to the accumulation. -/
structure StepLog where
  genCall : Option GenCall
  genResult : Option GenOutput
  producedNodes : List GraphNode
  producedEdges : List GraphEdge

/-- The cypher query a step appended to cypher_queries: one entry when the
generator succeeded, none otherwise. -/
def genQueryList (l : StepLog) : List String :=
  match l.genResult with
  | some g => [g.cypher_query]
  | none => []

/-- The hop record the per-step except branch appends (lines 208-212):
only step_number, description and error keys are written. -/
def errorHop (i : Nat) (d : Json) (e : String) : HopOutcome :=
  { step_number := i + 1, description := d,
    cypher_query := none, reasoning := none,
    nodes_found := none, edges_found := none,
    error := some e }

/-- The hop record appended on step success (lines 195-202). -/
def successHop (i : Nat) (d : Json) (g : GenOutput)
    (hop : List GraphNode × List GraphEdge) : HopOutcome :=
  { step_number := i + 1, description := d,
    cypher_query := some g.cypher_query, reasoning := some g.reasoning,
    nodes_found := some hop.1.length, edges_found := some hop.2.length,
    error := none }

/-- The except-branch of the per-step try (lines 206-212): append a hop
record carrying the error.  Building that record evaluates
step.get(description, empty) again, which itself raises when the step is
not a dict; such an exception escapes the loop. -/
def stepHandler (i : Nat) (step : Json) (e : String) (st : LoopState)
    (log : StepLog) : Except String (LoopState × StepLog) :=
  match Json.get step "description" (Json.str "") with
  | .error e2 => .error e2
  | .ok d =>
    .ok ({ st with hop_results := st.hop_results ++ [errorHop i d e] }, log)

/-- One iteration of the hop loop (lines 168-212), at enumerate index i.
Follows the statement order of the try block: the logging call evaluates
step.get(description, Unknown step) first; previous_results is serialized
from the accumulation so far; the generator is called; its query is
appended to cypher_queries BEFORE the backend runs; on backend success the
results are accumulated and a success hop record appended. -/
def runStep (gen : Nat → Json → String → Json → Except String GenOutput)
    (exec : Nat → String → Except String (List GraphNode × List GraphEdge))
    (i : Nat) (step : Json) (st : LoopState) :
    Except String (LoopState × StepLog) :=
  match Json.get step "description" (Json.str "Unknown step") with
  | .error e => stepHandler i step e st ⟨none, none, [], []⟩
  | .ok _ =>
    let previous_results := dumpResults st.all_nodes st.all_edges
    match Json.get step "description" (Json.str "") with
    | .error e => stepHandler i step e st ⟨none, none, [], []⟩
    | .ok d =>
      match Json.get step "expected_entities" (Json.str "Any") with
      | .error e => stepHandler i step e st ⟨none, none, [], []⟩
      | .ok t =>
        match gen i d previous_results t with
        | .error e =>
          stepHandler i step e st ⟨some ⟨i, d, previous_results, t⟩, none, [], []⟩
        | .ok cypher_result =>
          let st1 : LoopState :=
            { st with cypher_queries := st.cypher_queries ++ [cypher_result.cypher_query] }
          match exec i cypher_result.cypher_query with
          | .error e =>
            stepHandler i step e st1
              ⟨some ⟨i, d, previous_results, t⟩, some cypher_result, [], []⟩
          | .ok hop =>
            .ok ({ all_nodes := st1.all_nodes ++ hop.1,
                   all_edges := st1.all_edges ++ hop.2,
                   hop_results := st1.hop_results ++ [successHop i d cypher_result hop],
                   cypher_queries := st1.cypher_queries },
                 ⟨some ⟨i, d, previous_results, t⟩, some cypher_result, hop.1, hop.2⟩)

/-- The hop loop over the (already truncated) step list, starting at
enumerate index i.  An exception escaping a step handler aborts the loop. -/
def runHopsFrom (gen : Nat → Json → String → Json → Except String GenOutput)
    (exec : Nat → String → Except String (List GraphNode × List GraphEdge)) :
    Nat → List Json → LoopState → Except String (LoopState × List StepLog)
  | _, [], st => .ok (st, [])
  | i, step :: rest, st =>
    match runStep gen exec i step st with
    | .error e => .error e
    | .ok stl =>
      match runHopsFrom gen exec (i + 1) rest stl.1 with
      | .error e => .error e
      | .ok out => .ok (out.1, stl.2 :: out.2)

/-! ## The orchestrated entry point (process_complex_query) -/

/-- The context string handed to the planner (lines 120-125, whitespace
normalized). -/
def contextStr : String :=
  "Available entity types: Company, Person, Rating, Transaction, RegulatoryEvent\nRelationships: EMPLOYED_BY (Person->Company), HAS_RATING (Company->Rating),\nPARTICIPATES_IN (Company->Transaction), TARGET_OF (Company->RegulatoryEvent),\nSUBJECT_TO (Company->RegulatoryEvent)"

/-- The early return of the plan-parse except branch (lines 149-158).
Note execution_time is the constant 0.0 there. -/
def parseFailResult (question e : String) : MultiHopResult :=
  { query := question
    reasoning := "Failed to parse multi-hop plan"
    hops := []
    final_nodes := []
    final_edges := []
    execution_time := 0
    cypher_queries := []
    error := some ("Plan parsing failed: " ++ e) }

/-- The top-level except branch (lines 240-253): every accumulated list is
replaced by the empty list and only the error string is kept. -/
def errorResult (env : Env) (question e : String) : MultiHopResult :=
  { query := question
    reasoning := "Error during multi-hop processing: " ++ e
    hops := []
    final_nodes := []
    final_edges := []
    execution_time := env.endTime - env.startTime
    cypher_queries := []
    error := some e }

/-- The record returned on the normal path (lines 230-238). -/
def successResult (env : Env) (question planReasoning : String)
    (analysis : AnalysisOutput) (st : LoopState) : MultiHopResult :=
  { query := question
    reasoning := "Multi-hop plan: " ++ planReasoning ++ "\n\nFinal analysis: " ++ analysis.answer
    hops := st.hop_results
    final_nodes := deduplicate_nodes st.all_nodes
    final_edges := st.all_edges
    execution_time := env.endTime - env.startTime
    cypher_queries := st.cypher_queries
    error := none }

/-- Lines 160-238: execute the (parsed) plan and analyze.  steps is the
parsed plan when it was a JSON list, the empty list otherwise (lines
144-145); only the first max_hops elements run. -/
def afterPlan (env : Env) (question : String) (max_hops : Nat)
    (steps : List Json) (planReasoning : String) :
    Except String (MultiHopResult × List StepLog) :=
  match runHopsFrom env.cypher_generator env.execute_cypher_step 0
      (steps.take max_hops) emptyState with
  | .error e => .error e
  | .ok out =>
    match env.result_analyzer question (dumpResults out.1.all_nodes out.1.all_edges) with
    | .error e => .error e
    | .ok analysis => .ok (successResult env question planReasoning analysis out.1, out.2)

/-- The body of the outer try (lines 116-238).  An `Except.error` is an
exception reaching the top-level handler; the plan-parse failure is an
ordinary early return. -/
def outerBody (env : Env) (question : String) (max_hops : Nat) :
    Except String (MultiHopResult × List StepLog) :=
  match env.planner question contextStr with
  | .error e => .error e
  | .ok plan_result =>
    match plan_result.plan with
    | .error e => .ok (parseFailResult question e, [])
    | .ok parsed =>
      afterPlan env question max_hops
        (match parsed with
          | Json.arr xs => xs
          | _ => [])
        plan_result.reasoning

/-- process_complex_query with its ghost step trace. -/
def process_complex_queryT (env : Env) (question : String) (max_hops : Nat) :
    MultiHopResult × List StepLog :=
  match outerBody env question max_hops with
  | .ok out => out
  | .error e => (errorResult env question e, [])

/-- process_complex_query of multi_hop_agent.py. -/
def process_complex_query (env : Env) (question : String) (max_hops : Nat) :
    MultiHopResult :=
  (process_complex_queryT env question max_hops).1

/-! ## Proof-support definitions -/

/-- Structural form of the _deduplicate_nodes loop (no output accumulator);
`dedupAux_eq_dedupRec` relates it to the transcription. -/
def dedupRec : List String → List GraphNode → List GraphNode
  | _, [] => []
  | seen, node :: rest =>
    if node.id ∈ seen then dedupRec seen rest
    else node :: dedupRec (seen ++ [node.id]) rest

/-- Value of step.get(key, dflt) on a dict step. -/
def getFieldD (fields : List (String × Json)) (key : String) (dflt : Json) : Json :=
  match lookupField fields key with
  | some v => v
  | none => dflt

/-- `runStep` specialized to a dict step with description d and
expected_entities t; `runStep_obj_eq` shows the two agree definitionally. -/
def runStepObj (gen : Nat → Json → String → Json → Except String GenOutput)
    (exec : Nat → String → Except String (List GraphNode × List GraphEdge))
    (i : Nat) (d t : Json) (st : LoopState) :
    Except String (LoopState × StepLog) :=
  let previous_results := dumpResults st.all_nodes st.all_edges
  match gen i d previous_results t with
  | .error e =>
    .ok ({ st with hop_results := st.hop_results ++ [errorHop i d e] },
         ⟨some ⟨i, d, previous_results, t⟩, none, [], []⟩)
  | .ok cypher_result =>
    let st1 : LoopState :=
      { st with cypher_queries := st.cypher_queries ++ [cypher_result.cypher_query] }
    match exec i cypher_result.cypher_query with
    | .error e =>
      .ok ({ st1 with hop_results := st1.hop_results ++ [errorHop i d e] },
           ⟨some ⟨i, d, previous_results, t⟩, some cypher_result, [], []⟩)
    | .ok hop =>
      .ok ({ all_nodes := st1.all_nodes ++ hop.1,
             all_edges := st1.all_edges ++ hop.2,
             hop_results := st1.hop_results ++ [successHop i d cypher_result hop],
             cypher_queries := st1.cypher_queries },
           ⟨some ⟨i, d, previous_results, t⟩, some cypher_result, hop.1, hop.2⟩)

/-- The call at index j fails: either the generator raises on every input,
or the generator always answers and the backend raises on every query. -/
def CallFails (gen : Nat → Json → String → Json → Except String GenOutput)
    (exec : Nat → String → Except String (List GraphNode × List GraphEdge))
    (j : Nat) (msg : String) : Prop :=
  (∀ d p t, gen j d p t = Except.error msg) ∨
  ((∀ d p t, ∃ g, gen j d p t = Except.ok g) ∧ ∀ q, exec j q = Except.error msg)

/-- Invariant of the hop loop over dict steps, relating the final state and
the ghost trace to the starting state. -/
structure HopsInv (gen : Nat → Json → String → Json → Except String GenOutput)
    (exec : Nat → String → Except String (List GraphNode × List GraphEdge))
    (i : Nat) (st : LoopState) (steps : List Json)
    (st' : LoopState) (hops2 : List HopOutcome) (logs : List StepLog) : Prop where
  hop_eq : st'.hop_results = st.hop_results ++ hops2
  hops_len : hops2.length = steps.length
  logs_len : logs.length = steps.length
  step_numbers : hops2.map HopOutcome.step_number = List.range' (i + 1) steps.length
  nodes_eq : st'.all_nodes = st.all_nodes ++ (logs.map StepLog.producedNodes).flatten
  edges_eq : st'.all_edges = st.all_edges ++ (logs.map StepLog.producedEdges).flatten
  queries_eq : st'.cypher_queries = st.cypher_queries ++ (logs.map genQueryList).flatten
  gen_calls : ∀ k, (hk : k < logs.length) →
    (logs.get ⟨k, hk⟩).genCall.map GenCall.callIndex = some (i + k) ∧
    (logs.get ⟨k, hk⟩).genCall.map GenCall.previous_results =
      some (dumpResults
        (st.all_nodes ++ ((logs.take k).map StepLog.producedNodes).flatten)
        (st.all_edges ++ ((logs.take k).map StepLog.producedEdges).flatten))
  fails : ∀ k, k < steps.length → ∀ msg, CallFails gen exec (i + k) msg →
    ∃ (hk2 : k < hops2.length) (hk3 : k < logs.length),
      (hops2.get ⟨k, hk2⟩).error = some msg ∧
      (hops2.get ⟨k, hk2⟩).nodes_found = none ∧
      (hops2.get ⟨k, hk2⟩).edges_found = none ∧
      (logs.get ⟨k, hk3⟩).producedNodes = [] ∧
      (logs.get ⟨k, hk3⟩).producedEdges = []

/-- The run took the plan-parse-failure early return. -/
def planParseFailed (env : Env) (question : String) : Bool :=
  match env.planner question contextStr with
  | .ok pr =>
    match pr.plan with
    | .error _ => true
    | .ok _ => false
  | .error _ => false

/-- The analyzer oracle answers every input. -/
def AnalyzerOk (env : Env) : Prop :=
  ∀ q r, ∃ a, env.result_analyzer q r = Except.ok a

/-! ## Concrete environments for witnesses and counterexamples -/

def constGen (g : GenOutput) : Nat → Json → String → Json → Except String GenOutput :=
  fun _ _ _ _ => Except.ok g

def constExec (res : List GraphNode × List GraphEdge) :
    Nat → String → Except String (List GraphNode × List GraphEdge) :=
  fun _ _ => Except.ok res

def constAnalyzer (a : AnalysisOutput) : String → String → Except String AnalysisOutput :=
  fun _ _ => Except.ok a

def analysisW : AnalysisOutput := ⟨"answer", "complete", ""⟩

/-- A well-formed plan step, as the planner emits them. -/
def stepW (d ents : String) : Json :=
  Json.obj [("step_number", Json.num 1), ("description", Json.str d),
            ("cypher_template", Json.str "MATCH (n) RETURN n"),
            ("expected_entities", Json.str ents)]

def stepsW : List Json := [stepW "find companies" "Company", stepW "find executives" "Person"]

def steps1W : List Json := [stepW "find companies" "Company"]

/-- Normal run: two-step plan, generator and backend succeed. -/
def envW : Env :=
  { planner := fun _ _ => .ok ⟨.ok (Json.arr stepsW), "two hops"⟩
    cypher_generator := constGen ⟨"MATCH (c:Company) RETURN c", "generated"⟩
    execute_cypher_step := constExec ([company_1], [emp_1])
    result_analyzer := constAnalyzer analysisW
    startTime := 2
    endTime := 7 }

/-- Plan field does not parse as JSON. -/
def envC2 : Env :=
  { envW with planner := fun _ _ => .ok ⟨.error "Expecting value: line 1 column 1", "r"⟩ }

/-- Twin of envC2 with a different generator and clock, same planner. -/
def envC2alt : Env :=
  { envC2 with cypher_generator := constGen ⟨"OTHER", "other"⟩, endTime := 99 }

/-- Generator raises at call index 0, succeeds afterwards. -/
def envC3 : Env :=
  { envW with cypher_generator := fun j _ _ _ =>
      if j = 0 then Except.error "LM failure" else Except.ok ⟨"Q2", "r2"⟩ }

/-- Analyzer raises: the only unguarded call of the normal path. -/
def envC4bad : Env :=
  { envW with result_analyzer := fun _ _ => Except.error "analysis failure" }

/-- Plan parses to a JSON value that is not a sequence. -/
def envC7a : Env :=
  { envW with planner := fun _ _ => .ok ⟨.ok (Json.str "no list"), "r"⟩ }

/-- Plan parses to a sequence whose first element is not a dict. -/
def envC7b : Env :=
  { envW with planner := fun _ _ => .ok ⟨.ok (Json.arr [Json.num 1]), "r"⟩ }

/-- Plan-parse failure with a nonzero elapsed clock. -/
def envC9 : Env :=
  { envW with planner := fun _ _ => .ok ⟨.error "Expecting value", "r"⟩ }

/-- One-step plan; generation succeeds, the backend raises. -/
def envC10 : Env :=
  { envW with planner := fun _ _ => .ok ⟨.ok (Json.arr steps1W), "one hop"⟩
              execute_cypher_step := fun _ _ => Except.error "backend down" }

/-- The planner call itself raises. -/
def envC4p : Env :=
  { envW with planner := fun _ _ => Except.error "planner down" }

/-! ## Theorems: node deduplication -/

theorem dedupAux_eq_dedupRec (nodes : List GraphNode) :
    ∀ (seen : List String) (acc : List GraphNode),
      dedupAux seen acc nodes = acc ++ dedupRec seen nodes := by
  induction nodes with
  | nil => intro seen acc; simp [dedupAux, dedupRec]
  | cons node rest ih =>
    intro seen acc
    by_cases h : node.id ∈ seen
    · simp [dedupAux, dedupRec, h, ih]
    · simp [dedupAux, dedupRec, h, ih]

theorem dedupRec_sublist (nodes : List GraphNode) :
    ∀ seen, (dedupRec seen nodes).Sublist nodes := by
  induction nodes with
  | nil => intro seen; simp [dedupRec]
  | cons node rest ih =>
    intro seen
    by_cases h : node.id ∈ seen
    · simp only [dedupRec, if_pos h]
      exact (ih seen).cons node
    · simp only [dedupRec, if_neg h]
      exact (ih (seen ++ [node.id])).cons₂ node

theorem mem_dedupRec (nodes : List GraphNode) :
    ∀ (seen : List String) (m : GraphNode),
      m ∈ dedupRec seen nodes ↔
        m.id ∉ seen ∧ nodes.find? (fun n => n.id == m.id) = some m := by
  induction nodes with
  | nil => intro seen m; simp [dedupRec]
  | cons node rest ih =>
    intro seen m
    by_cases hc : node.id = m.id
    · have hpa : (node.id == m.id) = true := by simp [hc]
      rw [List.find?_cons]
      simp only [hpa]
      by_cases hn : node.id ∈ seen
      · simp only [dedupRec, if_pos hn]
        rw [ih]
        constructor
        · rintro ⟨hm, _⟩
          exact absurd (hc ▸ hn) hm
        · rintro ⟨hm, _⟩
          exact absurd (hc ▸ hn) hm
      · simp only [dedupRec, if_neg hn, List.mem_cons]
        constructor
        · rintro (h | h)
          · subst h
            exact ⟨hc ▸ hn, rfl⟩
          · rcases (ih (seen ++ [node.id]) m).mp h with ⟨hnot, _⟩
            exact absurd (by simp [hc]) hnot
        · rintro ⟨_, hsome⟩
          exact Or.inl (Option.some.inj hsome).symm
    · have hpa : (node.id == m.id) = false := by simp [hc]
      rw [List.find?_cons]
      simp only [hpa]
      by_cases hn : node.id ∈ seen
      · simp only [dedupRec, if_pos hn]
        exact ih seen m
      · simp only [dedupRec, if_neg hn, List.mem_cons]
        rw [ih]
        constructor
        · rintro (h | ⟨hnot, hfind⟩)
          · exact absurd (congrArg GraphNode.id h).symm hc
          · refine ⟨fun hmem => hnot ?_, hfind⟩
            exact List.mem_append.mpr (Or.inl hmem)
        · rintro ⟨hnot, hfind⟩
          refine Or.inr ⟨?_, hfind⟩
          intro hmem
          rcases List.mem_append.mp hmem with h | h
          · exact hnot h
          · exact hc (List.mem_singleton.mp h).symm

theorem nodup_dedupRec (nodes : List GraphNode) :
    ∀ seen, ((dedupRec seen nodes).map GraphNode.id).Nodup := by
  induction nodes with
  | nil => intro seen; simp [dedupRec]
  | cons node rest ih =>
    intro seen
    by_cases hn : node.id ∈ seen
    · simp only [dedupRec, if_pos hn]
      exact ih seen
    · simp only [dedupRec, if_neg hn, List.map_cons, List.nodup_cons]
      refine ⟨?_, ih _⟩
      intro hmem
      rcases List.mem_map.mp hmem with ⟨m, hm, hid⟩
      rcases (mem_dedupRec rest _ m).mp hm with ⟨hnot, _⟩
      refine hnot ?_
      rw [hid]
      exact List.mem_append.mpr (Or.inr (List.mem_singleton.mpr rfl))

theorem cover_dedupRec (nodes : List GraphNode) :
    ∀ seen n, n ∈ nodes →
      n.id ∈ seen ∨ ∃ m, m ∈ dedupRec seen nodes ∧ m.id = n.id := by
  induction nodes with
  | nil => intro seen n h; cases h
  | cons node rest ih =>
    intro seen n hmem
    rcases List.mem_cons.mp hmem with h | h
    · subst h
      by_cases hn : n.id ∈ seen
      · exact Or.inl hn
      · refine Or.inr ⟨n, ?_, rfl⟩
        simp only [dedupRec, if_neg hn]
        exact List.mem_cons_self _ _
    · by_cases hn : node.id ∈ seen
      · rcases ih seen n h with h2 | ⟨m, hm, hid⟩
        · exact Or.inl h2
        · refine Or.inr ⟨m, ?_, hid⟩
          simp only [dedupRec, if_pos hn]
          exact hm
      · rcases ih (seen ++ [node.id]) n h with h2 | ⟨m, hm, hid⟩
        · rcases List.mem_append.mp h2 with h3 | h3
          · exact Or.inl h3
          · refine Or.inr ⟨node, ?_, (List.mem_singleton.mp h3).symm⟩
            simp only [dedupRec, if_neg hn]
            exact List.mem_cons_self _ _
        · refine Or.inr ⟨m, ?_, hid⟩
          simp only [dedupRec, if_neg hn]
          exact List.mem_cons_of_mem _ hm

/-- C5: for every input node sequence, _deduplicate_nodes returns a
subsequence of the input (so kept nodes are unchanged and in input order),
no two output nodes share an id, the members of the output are exactly the
first occurrence of each id, and every input id is represented. -/
theorem deduplicate_nodes_spec (ns : List GraphNode) :
    (deduplicate_nodes ns).Sublist ns ∧
    ((deduplicate_nodes ns).map GraphNode.id).Nodup ∧
    (∀ m, m ∈ deduplicate_nodes ns ↔
      ns.find? (fun n => n.id == m.id) = some m) ∧
    (∀ n, n ∈ ns → ∃ m, m ∈ deduplicate_nodes ns ∧ m.id = n.id) := by
  have hd : deduplicate_nodes ns = dedupRec [] ns := by
    simp [deduplicate_nodes, dedupAux_eq_dedupRec]
  rw [hd]
  refine ⟨dedupRec_sublist ns [], nodup_dedupRec ns [], ?_, ?_⟩
  · intro m
    rw [mem_dedupRec]
    simp
  · intro n hn
    rcases cover_dedupRec ns [] n hn with h | h
    · exact absurd h (List.not_mem_nil _)
    · exact h

/-! ## Theorems: the hop loop -/

theorem runStep_obj_eq (gen : Nat → Json → String → Json → Except String GenOutput)
    (exec : Nat → String → Except String (List GraphNode × List GraphEdge))
    (i : Nat) (fields : List (String × Json)) (st : LoopState) :
    runStep gen exec i (Json.obj fields) st =
      runStepObj gen exec i (getFieldD fields "description" (Json.str ""))
        (getFieldD fields "expected_entities" (Json.str "Any")) st := rfl

theorem runStepObj_spec (gen : Nat → Json → String → Json → Except String GenOutput)
    (exec : Nat → String → Except String (List GraphNode × List GraphEdge))
    (i : Nat) (d t : Json) (st : LoopState) :
    ∃ h log st',
      runStepObj gen exec i d t st = .ok (st', log) ∧
      st'.hop_results = st.hop_results ++ [h] ∧
      h.step_number = i + 1 ∧
      st'.all_nodes = st.all_nodes ++ log.producedNodes ∧
      st'.all_edges = st.all_edges ++ log.producedEdges ∧
      st'.cypher_queries = st.cypher_queries ++ genQueryList log ∧
      log.genCall = some ⟨i, d, dumpResults st.all_nodes st.all_edges, t⟩ ∧
      (∀ msg, CallFails gen exec i msg →
        h.error = some msg ∧ h.nodes_found = none ∧ h.edges_found = none ∧
        log.producedNodes = [] ∧ log.producedEdges = []) := by
  cases hg : gen i d (dumpResults st.all_nodes st.all_edges) t with
  | error e =>
    have heq : runStepObj gen exec i d t st =
        .ok ({ st with hop_results := st.hop_results ++ [errorHop i d e] },
             ⟨some ⟨i, d, dumpResults st.all_nodes st.all_edges, t⟩, none, [], []⟩) := by
      simp only [runStepObj, hg]
    refine ⟨errorHop i d e, _, _, heq, rfl, rfl, by simp, by simp,
      by simp [genQueryList], rfl, ?_⟩
    intro msg hcf
    rcases hcf with hfail | ⟨hok, _⟩
    · have h2 := hfail d (dumpResults st.all_nodes st.all_edges) t
      rw [hg] at h2
      injection h2 with he2
      subst he2
      exact ⟨rfl, rfl, rfl, rfl, rfl⟩
    · rcases hok d (dumpResults st.all_nodes st.all_edges) t with ⟨g, hgok⟩
      rw [hg] at hgok
      exact Except.noConfusion hgok
  | ok g =>
    cases he : exec i g.cypher_query with
    | error e =>
      have heq : runStepObj gen exec i d t st =
          .ok ({ st with cypher_queries := st.cypher_queries ++ [g.cypher_query],
                         hop_results := st.hop_results ++ [errorHop i d e] },
               ⟨some ⟨i, d, dumpResults st.all_nodes st.all_edges, t⟩, some g, [], []⟩) := by
        simp only [runStepObj, hg, he]
      refine ⟨errorHop i d e, _, _, heq, rfl, rfl, by simp, by simp,
        by simp [genQueryList], rfl, ?_⟩
      intro msg hcf
      rcases hcf with hfail | ⟨_, hex⟩
      · have h2 := hfail d (dumpResults st.all_nodes st.all_edges) t
        rw [hg] at h2
        exact Except.noConfusion h2
      · have h2 := hex g.cypher_query
        rw [he] at h2
        injection h2 with he2
        subst he2
        exact ⟨rfl, rfl, rfl, rfl, rfl⟩
    | ok hop =>
      have heq : runStepObj gen exec i d t st =
          .ok ({ all_nodes := st.all_nodes ++ hop.1,
                 all_edges := st.all_edges ++ hop.2,
                 hop_results := st.hop_results ++ [successHop i d g hop],
                 cypher_queries := st.cypher_queries ++ [g.cypher_query] },
               ⟨some ⟨i, d, dumpResults st.all_nodes st.all_edges, t⟩, some g, hop.1, hop.2⟩) := by
        simp only [runStepObj, hg, he]
      refine ⟨successHop i d g hop, _, _, heq, rfl, rfl, rfl, rfl,
        by simp [genQueryList], rfl, ?_⟩
      intro msg hcf
      rcases hcf with hfail | ⟨_, hex⟩
      · have h2 := hfail d (dumpResults st.all_nodes st.all_edges) t
        rw [hg] at h2
        exact Except.noConfusion h2
      · have h2 := hex g.cypher_query
        rw [he] at h2
        exact Except.noConfusion h2

theorem runHopsFrom_obj (gen : Nat → Json → String → Json → Except String GenOutput)
    (exec : Nat → String → Except String (List GraphNode × List GraphEdge)) :
    ∀ (steps : List Json) (i : Nat) (st : LoopState),
      (∀ s ∈ steps, s.isObj = true) →
      ∃ st' hops2 logs,
        runHopsFrom gen exec i steps st = .ok (st', logs) ∧
        HopsInv gen exec i st steps st' hops2 logs := by
  intro steps
  induction steps with
  | nil =>
    intro i st _
    refine ⟨st, [], [], rfl, ?_⟩
    refine ⟨by simp, rfl, rfl, rfl, by simp, by simp, by simp, ?_, ?_⟩
    · intro k hk
      exact absurd hk (Nat.not_lt_zero k)
    · intro k hk
      exact absurd hk (Nat.not_lt_zero k)
  | cons s rest ih =>
    intro i st hobj
    have hso : s.isObj = true := hobj s (List.mem_cons_self _ _)
    cases s with
    | null => simp [Json.isObj] at hso
    | bool b => simp [Json.isObj] at hso
    | num n => simp [Json.isObj] at hso
    | str s2 => simp [Json.isObj] at hso
    | arr xs => simp [Json.isObj] at hso
    | obj fields =>
      have hrest : ∀ x ∈ rest, x.isObj = true :=
        fun x hx => hobj x (List.mem_cons_of_mem _ hx)
      obtain ⟨h0, log0, st1, heq, hhop, hsn, hnodes, hedges, hqueries, hcall, hfails⟩ :=
        runStepObj_spec gen exec i (getFieldD fields "description" (Json.str ""))
          (getFieldD fields "expected_entities" (Json.str "Any")) st
      obtain ⟨st2, hops2, logs2, hrun2, inv2⟩ := ih (i + 1) st1 hrest
      refine ⟨st2, h0 :: hops2, log0 :: logs2, ?_, ?_⟩
      · simp only [runHopsFrom, runStep_obj_eq, heq, hrun2]
      refine ⟨?_, ?_, ?_, ?_, ?_, ?_, ?_, ?_, ?_⟩
      · rw [inv2.hop_eq, hhop]
        simp
      · simp [inv2.hops_len]
      · simp [inv2.logs_len]
      · simp only [List.map_cons, List.length_cons, hsn, inv2.step_numbers,
          List.range'_succ]
      · rw [inv2.nodes_eq, hnodes]
        simp
      · rw [inv2.edges_eq, hedges]
        simp
      · rw [inv2.queries_eq, hqueries]
        simp
      · intro k hk
        cases k with
        | zero =>
          constructor
          · rw [List.get]
            rw [hcall]
            rfl
          · rw [List.get]
            rw [hcall]
            simp
        | succ k2 =>
          have hk2 : k2 < logs2.length := by
            simpa using Nat.lt_of_succ_lt_succ (by simpa using hk)
          obtain ⟨hci, hpr⟩ := inv2.gen_calls k2 hk2
          have hgg : (log0 :: logs2).get ⟨k2 + 1, hk⟩ = logs2.get ⟨k2, hk2⟩ := rfl
          rw [hgg]
          constructor
          · have harith : i + (k2 + 1) = (i + 1) + k2 := by omega
            rw [harith]
            exact hci
          · rw [hnodes, hedges] at hpr
            simpa [List.take_succ_cons, List.map_cons, List.flatten_cons,
              List.append_assoc] using hpr
      · intro k hk msg hcf
        cases k with
        | zero =>
          obtain ⟨e1, e2, e3, e4, e5⟩ := hfails msg hcf
          exact ⟨Nat.succ_pos _, Nat.succ_pos _, e1, e2, e3, e4, e5⟩
        | succ k2 =>
          have hk2 : k2 < rest.length := Nat.lt_of_succ_lt_succ (by simpa using hk)
          have hcf2 : CallFails gen exec ((i + 1) + k2) msg := by
            have harith : (i + 1) + k2 = i + (k2 + 1) := by omega
            rw [harith]
            exact hcf
          obtain ⟨hh2, hl2, e1, e2, e3, e4, e5⟩ := inv2.fails k2 hk2 msg hcf2
          refine ⟨by simpa using Nat.succ_lt_succ hh2, by simpa using Nat.succ_lt_succ hl2,
            ?_, ?_, ?_, ?_, ?_⟩
          · exact e1
          · exact e2
          · exact e3
          · exact e4
          · exact e5

theorem processT_normal (env : Env) (question : String) (m : Nat)
    (steps : List Json) (planR : String)
    (hp : env.planner question contextStr = Except.ok ⟨Except.ok (Json.arr steps), planR⟩)
    (hobj : ∀ s ∈ steps, s.isObj = true)
    (ha : AnalyzerOk env) :
    ∃ st hops2 logs analysis,
      runHopsFrom env.cypher_generator env.execute_cypher_step 0 (steps.take m) emptyState
        = .ok (st, logs) ∧
      env.result_analyzer question (dumpResults st.all_nodes st.all_edges)
        = Except.ok analysis ∧
      process_complex_queryT env question m = (successResult env question planR analysis st, logs) ∧
      HopsInv env.cypher_generator env.execute_cypher_step 0 emptyState (steps.take m)
        st hops2 logs := by
  have hobj2 : ∀ s ∈ steps.take m, s.isObj = true :=
    fun s hs => hobj s (List.take_subset m steps hs)
  obtain ⟨st, hops2, logs, hrun, inv⟩ :=
    runHopsFrom_obj env.cypher_generator env.execute_cypher_step (steps.take m) 0
      emptyState hobj2
  obtain ⟨analysis, hana⟩ := ha question (dumpResults st.all_nodes st.all_edges)
  refine ⟨st, hops2, logs, analysis, hrun, hana, ?_, inv⟩
  simp only [process_complex_queryT, outerBody, hp, afterPlan, hrun, hana]

/-! ## Claim C1 -/

/-- C1: for a successfully parsed plan that is a list of well-formed steps
and a positive max_hops, the returned hops list has exactly
min(plan length, max_hops) entries with step numbers 1, 2, ... in order,
and the whole result is unchanged when the plan is truncated to its first
max_hops steps (later steps are never executed and contribute nothing). -/
theorem hops_one_per_step_min (env : Env) (question : String) (m : Nat)
    (steps : List Json) (planR : String)
    (hp : env.planner question contextStr = Except.ok ⟨Except.ok (Json.arr steps), planR⟩)
    (hobj : ∀ s ∈ steps, s.isObj = true)
    (ha : AnalyzerOk env)
    (hm : 0 < m) :
    (process_complex_query env question m).hops.length = min steps.length m ∧
    (process_complex_query env question m).hops.map HopOutcome.step_number
      = List.range' 1 (min steps.length m) ∧
    process_complex_query env question m =
      process_complex_query
        { env with planner :=
            fun a b => Except.ok ⟨Except.ok (Json.arr (steps.take m)), planR⟩ }
        question m := by
  obtain ⟨st, hops2, logs, analysis, hrun, hana, hpt, inv⟩ :=
    processT_normal env question m steps planR hp hobj ha
  have hhops : (process_complex_query env question m).hops = hops2 := by
    rw [process_complex_query, hpt]
    have := inv.hop_eq
    simp only [emptyState] at this
    simp [successResult, this]
  have hlen : hops2.length = min steps.length m := by
    rw [inv.hops_len, List.length_take, Nat.min_comm]
  refine ⟨by rw [hhops, hlen], by rw [hhops, inv.step_numbers, List.length_take, Nat.min_comm], ?_⟩
  · set envT : Env :=
      { env with planner :=
          fun a b => Except.ok ⟨Except.ok (Json.arr (steps.take m)), planR⟩ } with hdefT
    have hpT : envT.planner question contextStr
        = Except.ok ⟨Except.ok (Json.arr (steps.take m)), planR⟩ := rfl
    have hobjT : ∀ s ∈ steps.take m, s.isObj = true :=
      fun s hs => hobj s (List.take_subset m steps hs)
    have haT : AnalyzerOk envT := ha
    obtain ⟨stT, hops2T, logsT, analysisT, hrunT, hanaT, hptT, invT⟩ :=
      processT_normal envT question m (steps.take m) planR hpT hobjT haT
    rw [List.take_take, Nat.min_self] at hrunT
    have hgenT : envT.cypher_generator = env.cypher_generator := rfl
    have hexecT : envT.execute_cypher_step = env.execute_cypher_step := rfl
    rw [hgenT, hexecT] at hrunT
    have hinj := hrun.symm.trans hrunT
    injection hinj with hpair
    have hst : st = stT := congrArg Prod.fst hpair
    have hanaT2 : env.result_analyzer question (dumpResults st.all_nodes st.all_edges)
        = Except.ok analysisT := by
      rw [hst]
      exact hanaT
    have hA := hana.symm.trans hanaT2
    injection hA with hA2
    rw [process_complex_query, hpt, process_complex_query, hptT]
    rw [← hst, ← hA2]
    simp [successResult]

/-- C1 witness: the two-step plan of envW with max_hops 1 runs one hop. -/
theorem hops_one_per_step_min_witness :
    (process_complex_query envW "q" 1).hops.length = min stepsW.length 1 ∧
    (process_complex_query envW "q" 1).hops.map HopOutcome.step_number
      = List.range' 1 (min stepsW.length 1) ∧
    process_complex_query envW "q" 1 =
      process_complex_query
        { envW with planner :=
            fun a b => Except.ok ⟨Except.ok (Json.arr (stepsW.take 1)), "two hops"⟩ }
        "q" 1 :=
  hops_one_per_step_min envW "q" 1 stepsW "two hops" rfl (by decide)
    (fun a b => ⟨analysisW, rfl⟩) (by decide)

/-! ## Claim C2 -/

/-- C2: when the planner output cannot be parsed -- json.loads raising on
non-JSON text, or the plan attribute being no string at all (e.g. a list
object), which raises AttributeError at .strip() -- the run returns the
early parse-failure record: empty hops, empty final_nodes, non-null
top-level error, and the result does not depend on the generator, backend,
analyzer or clock, so no step is executed. -/
theorem plan_parse_failure_result (env : Env) (question : String) (m : Nat)
    (pr : PlannerOutput) (e : String)
    (hp : env.planner question contextStr = Except.ok pr)
    (hparse : pr.plan = Except.error e) :
    process_complex_query env question m = parseFailResult question e ∧
    (process_complex_query env question m).hops = [] ∧
    (process_complex_query env question m).final_nodes = [] ∧
    (process_complex_query env question m).error
      = some ("Plan parsing failed: " ++ e) ∧
    (∀ env' : Env, env'.planner = env.planner →
      process_complex_query env' question m = process_complex_query env question m) := by
  have hpt : process_complex_queryT env question m = (parseFailResult question e, []) := by
    simp only [process_complex_queryT, outerBody, hp, hparse]
  have h1 : process_complex_query env question m = parseFailResult question e := by
    rw [process_complex_query, hpt]
  refine ⟨h1, by rw [h1]; rfl, by rw [h1]; rfl, by rw [h1]; rfl, ?_⟩
  intro env' hpe
  have hp' : env'.planner question contextStr = Except.ok pr := by
    rw [hpe]
    exact hp
  have hpt' : process_complex_queryT env' question m = (parseFailResult question e, []) := by
    simp only [process_complex_queryT, outerBody, hp', hparse]
  rw [process_complex_query, hpt', process_complex_query, hpt]

/-- C2 witness: a JSONDecodeError from the planner output yields the
parse-failure record, independently of the other collaborators. -/
theorem plan_parse_failure_result_witness :
    process_complex_query envC2 "q" 3
      = parseFailResult "q" "Expecting value: line 1 column 1" ∧
    (process_complex_query envC2 "q" 3).hops = [] ∧
    (process_complex_query envC2 "q" 3).final_nodes = [] ∧
    (process_complex_query envC2 "q" 3).error
      = some ("Plan parsing failed: " ++ "Expecting value: line 1 column 1") ∧
    process_complex_query envC2alt "q" 3 = process_complex_query envC2 "q" 3 := by
  have h := plan_parse_failure_result envC2 "q" 3
    ⟨Except.error "Expecting value: line 1 column 1", "r"⟩
    "Expecting value: line 1 column 1" rfl rfl
  exact ⟨h.1, h.2.1, h.2.2.1, h.2.2.2.1, h.2.2.2.2 envC2alt rfl⟩

/-! ## Claim C3 -/

/-- C3 (amended): a step whose query generation or backend execution
raises does not abort the run: every one of the min(n, max_hops) steps
still yields a hop record, the analyzer still runs (top-level error stays
null), and the failing hop carries a non-null error while its
nodes_found / edges_found keys are absent (none), not zero. -/
theorem failing_hop_nonfatal (env : Env) (question : String) (m : Nat)
    (steps : List Json) (planR : String) (i0 : Nat) (msg : String)
    (hp : env.planner question contextStr = Except.ok ⟨Except.ok (Json.arr steps), planR⟩)
    (hobj : ∀ s ∈ steps, s.isObj = true)
    (ha : AnalyzerOk env)
    (hi : i0 < min steps.length m)
    (hcf : CallFails env.cypher_generator env.execute_cypher_step i0 msg) :
    (process_complex_query env question m).error = none ∧
    (process_complex_query env question m).hops.length = min steps.length m ∧
    ((process_complex_query env question m).hops.get? i0).map HopOutcome.error
      = some (some msg) ∧
    ((process_complex_query env question m).hops.get? i0).map HopOutcome.nodes_found
      = some none ∧
    ((process_complex_query env question m).hops.get? i0).map HopOutcome.edges_found
      = some none := by
  obtain ⟨st, hops2, logs, analysis, hrun, hana, hpt, inv⟩ :=
    processT_normal env question m steps planR hp hobj ha
  have hhops : (process_complex_query env question m).hops = hops2 := by
    rw [process_complex_query, hpt]
    have h2 := inv.hop_eq
    simp only [emptyState] at h2
    simp [successResult, h2]
  have hk' : i0 < (steps.take m).length := by
    rw [List.length_take, Nat.min_comm]
    exact hi
  have hcf2 : CallFails env.cypher_generator env.execute_cypher_step (0 + i0) msg := by
    rw [Nat.zero_add]
    exact hcf
  obtain ⟨hk2, hk3, e1, e2, e3, _, _⟩ := inv.fails i0 hk' msg hcf2
  simp only [List.get_eq_getElem] at e1 e2 e3
  refine ⟨by rw [process_complex_query, hpt]; rfl, ?_, ?_, ?_, ?_⟩
  · rw [hhops, inv.hops_len, List.length_take, Nat.min_comm]
  · rw [hhops, List.get?_eq_get hk2]
    simp [e1]
  · rw [hhops, List.get?_eq_get hk2]
    simp [e2]
  · rw [hhops, List.get?_eq_get hk2]
    simp [e3]

/-- C3 witness: generator failure at the first of two steps; the second
step and the analyzer still run. -/
theorem failing_hop_nonfatal_witness :
    (process_complex_query envC3 "q" 3).error = none ∧
    (process_complex_query envC3 "q" 3).hops.length = min stepsW.length 3 ∧
    ((process_complex_query envC3 "q" 3).hops.get? 0).map HopOutcome.error
      = some (some "LM failure") ∧
    ((process_complex_query envC3 "q" 3).hops.get? 0).map HopOutcome.nodes_found
      = some none ∧
    ((process_complex_query envC3 "q" 3).hops.get? 0).map HopOutcome.edges_found
      = some none :=
  failing_hop_nonfatal envC3 "q" 3 stepsW "two hops" 0 "LM failure" rfl (by decide)
    (fun a b => ⟨analysisW, rfl⟩) (by decide) (Or.inl fun d p t => rfl)

set_option maxRecDepth 4000 in
/-- C3 counterexample: the failing hop record has NO count keys (they are
none), not counts equal to zero, so the claim as stated (zero entity/edge
counts) does not hold of the record. -/
theorem failing_hop_counts_absent_cx :
    ((process_complex_query envC3 "q" 3).hops.get? 0).map HopOutcome.nodes_found
      = some none ∧
    ((process_complex_query envC3 "q" 3).hops.get? 0).map HopOutcome.nodes_found
      ≠ some (some 0) ∧
    ((process_complex_query envC3 "q" 3).hops.get? 0).map HopOutcome.edges_found
      ≠ some (some 0) ∧
    ((process_complex_query envC3 "q" 3).hops.get? 0).map HopOutcome.error
      = some (some "LM failure") := by
  refine ⟨rfl, by decide, by decide, rfl⟩

/-! ## Claim C4 -/

/-- C4 (amended): an exception outside the per-step and per-plan guarded
paths (the analyzer call, or the planner call itself) is caught at the top
level and a well-formed record with the error populated is returned; but
the accumulated hops, entities, edges and queries are NOT kept: the
top-level handler returns them all empty.  No exception propagates (the
entry point is a total function by construction). -/
theorem toplevel_exception_structured_result :
    (∀ (env : Env) (question : String) (m : Nat) (steps : List Json)
        (planR msg : String),
      env.planner question contextStr
          = Except.ok ⟨Except.ok (Json.arr steps), planR⟩ →
      (∀ s ∈ steps, s.isObj = true) →
      (∀ q r, env.result_analyzer q r = Except.error msg) →
      process_complex_query env question m = errorResult env question msg) ∧
    (∀ (env : Env) (question : String) (m : Nat) (e : String),
      env.planner question contextStr = Except.error e →
      process_complex_query env question m = errorResult env question e) := by
  constructor
  · intro env question m steps planR msg hp hobj hA
    have hobj2 : ∀ s ∈ steps.take m, s.isObj = true :=
      fun s hs => hobj s (List.take_subset m steps hs)
    obtain ⟨st, hops2, logs, hrun, _⟩ :=
      runHopsFrom_obj env.cypher_generator env.execute_cypher_step (steps.take m) 0
        emptyState hobj2
    have hA2 := hA question (dumpResults st.all_nodes st.all_edges)
    rw [process_complex_query]
    simp only [process_complex_queryT, outerBody, hp, afterPlan, hrun, hA2]
  · intro env question m e hp
    rw [process_complex_query]
    simp only [process_complex_queryT, outerBody, hp]

/-- C4 witness: a failing analyzer after two successful hops, and a
failing planner call, both yield the structured top-level error record. -/
theorem toplevel_exception_structured_result_witness :
    process_complex_query envC4bad "q" 3 = errorResult envC4bad "q" "analysis failure" ∧
    process_complex_query envC4p "q" 3 = errorResult envC4p "q" "planner down" := by
  have h := toplevel_exception_structured_result
  exact ⟨h.1 envC4bad "q" 3 stepsW "two hops" "analysis failure" rfl (by decide)
           (fun q r => rfl),
         h.2 envC4p "q" 3 "planner down" rfl⟩

/-- C4 counterexample: with the analyzer failing, the returned record has
empty hops/nodes/queries although two hop outcomes, one entity and two
edges had been accumulated before the exception (the identical run with a
working analyzer shows the accumulation). -/
theorem toplevel_exception_discards_partial_cx :
    (process_complex_query envC4bad "q" 3).error = some "analysis failure" ∧
    (process_complex_query envC4bad "q" 3).hops.length = 0 ∧
    (process_complex_query envC4bad "q" 3).final_nodes.length = 0 ∧
    (process_complex_query envC4bad "q" 3).final_edges.length = 0 ∧
    (process_complex_query envC4bad "q" 3).cypher_queries.length = 0 ∧
    (process_complex_query envW "q" 3).hops.length = 2 ∧
    (process_complex_query envW "q" 3).final_nodes.length = 1 ∧
    (process_complex_query envW "q" 3).final_edges.length = 2 ∧
    (process_complex_query envW "q" 3).cypher_queries.length = 2 := by
  refine ⟨rfl, rfl, rfl, rfl, rfl, rfl, rfl, rfl, rfl⟩

/-! ## Claim C6 -/

/-- C6: final_edges is exactly the concatenation, in discovery order, of
the edge lists the executed hops produced (one trace entry per hop), with
no deduplication. -/
theorem final_edges_concatenation (env : Env) (question : String) (m : Nat)
    (steps : List Json) (planR : String)
    (hp : env.planner question contextStr = Except.ok ⟨Except.ok (Json.arr steps), planR⟩)
    (hobj : ∀ s ∈ steps, s.isObj = true)
    (ha : AnalyzerOk env) :
    (process_complex_query env question m).final_edges
      = (((process_complex_queryT env question m).2).map StepLog.producedEdges).flatten ∧
    (process_complex_query env question m).hops.length
      = ((process_complex_queryT env question m).2).length := by
  obtain ⟨st, hops2, logs, analysis, hrun, hana, hpt, inv⟩ :=
    processT_normal env question m steps planR hp hobj ha
  have hlogs : (process_complex_queryT env question m).2 = logs := by rw [hpt]
  have hedge : (process_complex_query env question m).final_edges = st.all_edges := by
    rw [process_complex_query, hpt]
    rfl
  have h2 := inv.edges_eq
  simp only [emptyState] at h2
  have hhops : (process_complex_query env question m).hops = hops2 := by
    rw [process_complex_query, hpt]
    have h3 := inv.hop_eq
    simp only [emptyState] at h3
    simp [successResult, h3]
  constructor
  · rw [hedge, hlogs]
    simp [h2]
  · rw [hhops, hlogs, inv.hops_len, inv.logs_len]

set_option maxRecDepth 4000 in
/-- C6 witness: in envW both hops produce the same edge emp_1; both copies
(same id) are kept in final_edges while final_nodes is deduplicated. -/
theorem final_edges_concatenation_witness :
    (process_complex_query envW "q" 3).final_edges
      = (((process_complex_queryT envW "q" 3).2).map StepLog.producedEdges).flatten ∧
    (process_complex_query envW "q" 3).hops.length
      = ((process_complex_queryT envW "q" 3).2).length ∧
    (process_complex_query envW "q" 3).final_edges.map GraphEdge.id = ["emp_1", "emp_1"] ∧
    (process_complex_query envW "q" 3).final_nodes.map GraphNode.id = ["company_1"] := by
  have h := final_edges_concatenation envW "q" 3 stepsW "two hops" rfl (by decide)
    (fun a b => ⟨analysisW, rfl⟩)
  exact ⟨h.1, h.2, rfl, rfl⟩

/-! ## Claim C7 -/

/-- C7 (amended): a plan that parses to a non-sequence is treated as an
empty plan (zero hops, no top-level error, analyzer still runs); but a
sequence whose first element is not a step dict does NOT behave that way:
the per-step handler itself raises, the top-level handler catches it, and
the result carries the AttributeError with empty hops. -/
theorem nonlist_or_nonstep_plan :
    (∀ (env : Env) (question : String) (m : Nat) (j : Json) (planR : String)
        (a : AnalysisOutput),
      env.planner question contextStr = Except.ok ⟨Except.ok j, planR⟩ →
      j.isArr = false →
      env.result_analyzer question (dumpResults [] []) = Except.ok a →
      process_complex_query env question m
        = successResult env question planR a emptyState) ∧
    (∀ (env : Env) (question : String) (m : Nat) (s : Json) (rest : List Json)
        (planR : String),
      env.planner question contextStr
          = Except.ok ⟨Except.ok (Json.arr (s :: rest)), planR⟩ →
      s.isObj = false →
      0 < m →
      process_complex_query env question m = errorResult env question attrErrMsg) := by
  constructor
  · intro env question m j planR a hp hj hana
    have hsteps : (match j with | Json.arr xs => xs | _ => ([] : List Json)) = [] := by
      cases j <;> simp_all [Json.isArr]
    rw [process_complex_query]
    simp only [process_complex_queryT, outerBody, hp, hsteps, afterPlan, List.take_nil,
      runHopsFrom, emptyState] at hana ⊢
    simp only [hana]
  · intro env question m s rest planR hp hso hm
    have hget : ∀ key dflt, Json.get s key dflt = Except.error attrErrMsg := by
      intro key dflt
      cases s <;> simp_all [Json.isObj, Json.get]
    have hstep : ∀ st : LoopState,
        runStep env.cypher_generator env.execute_cypher_step 0 s st
          = Except.error attrErrMsg := by
      intro st
      simp only [runStep, hget, stepHandler]
    cases m with
    | zero => omega
    | succ m2 =>
      rw [process_complex_query]
      simp only [process_complex_queryT, outerBody, hp, afterPlan, List.take_succ_cons,
        runHopsFrom, hstep]

/-- C7 witness: a string-valued plan runs zero hops with the analyzer
still producing the result; a plan list whose head is the number 1 aborts
through the top-level handler. -/
theorem nonlist_or_nonstep_plan_witness :
    process_complex_query envC7a "q" 3 = successResult envC7a "q" "r" analysisW emptyState ∧
    process_complex_query envC7b "q" 3 = errorResult envC7b "q" attrErrMsg := by
  have h := nonlist_or_nonstep_plan
  exact ⟨h.1 envC7a "q" 3 (Json.str "no list") "r" analysisW rfl rfl rfl,
         h.2 envC7b "q" 3 (Json.num 1) [] "r" rfl rfl (by decide)⟩

/-- C7 counterexample: with a plan parsed as the list [1] (non-step
element), the claimed behavior (zero hops, no fatal error) does not hold:
the top-level error is set. -/
theorem nonstep_elements_abort_cx :
    (process_complex_query envC7b "q" 3).error = some attrErrMsg ∧
    (process_complex_query envC7b "q" 3).error ≠ none ∧
    (process_complex_query envC7b "q" 3).hops.length = 0 := by
  exact ⟨rfl, by decide, rfl⟩

/-! ## Claim C8 -/

/-- C8: the previous_results string passed to the generator at executed
step k is exactly the serialization of the nodes/edges accumulated by
steps 1..k (empty for the first step), and the call carries index k; no
later data can enter it. -/
theorem prev_results_prefix (env : Env) (question : String) (m : Nat)
    (steps : List Json) (planR : String) (k : Nat)
    (hp : env.planner question contextStr = Except.ok ⟨Except.ok (Json.arr steps), planR⟩)
    (hobj : ∀ s ∈ steps, s.isObj = true)
    (ha : AnalyzerOk env)
    (hk : k < ((process_complex_queryT env question m).2).length) :
    (((process_complex_queryT env question m).2).get? k).map
        (fun l => l.genCall.map GenCall.callIndex) = some (some k) ∧
    (((process_complex_queryT env question m).2).get? k).map
        (fun l => l.genCall.map GenCall.previous_results)
      = some (some (dumpResults
          ((((process_complex_queryT env question m).2.take k).map
              StepLog.producedNodes).flatten)
          ((((process_complex_queryT env question m).2.take k).map
              StepLog.producedEdges).flatten))) := by
  obtain ⟨st, hops2, logs, analysis, hrun, hana, hpt, inv⟩ :=
    processT_normal env question m steps planR hp hobj ha
  rw [hpt] at hk ⊢
  simp only at hk
  dsimp only
  obtain ⟨hci, hpr⟩ := inv.gen_calls k hk
  rw [Nat.zero_add] at hci
  simp only [emptyState, List.nil_append] at hpr
  have hgetq : logs.get? k = some (logs.get ⟨k, hk⟩) := List.get?_eq_get hk
  constructor
  · rw [hgetq]
    exact congrArg some hci
  · rw [hgetq]
    exact congrArg some hpr

set_option maxRecDepth 4000 in
/-- C8 witness: at the second step of the envW run, previous_results is
the serialization of exactly what the first step produced. -/
theorem prev_results_prefix_witness :
    (((process_complex_queryT envW "q" 3).2).get? 1).map
        (fun l => l.genCall.map GenCall.callIndex) = some (some 1) ∧
    (((process_complex_queryT envW "q" 3).2).get? 1).map
        (fun l => l.genCall.map GenCall.previous_results)
      = some (some (dumpResults
          ((((process_complex_queryT envW "q" 3).2.take 1).map
              StepLog.producedNodes).flatten)
          ((((process_complex_queryT envW "q" 3).2.take 1).map
              StepLog.producedEdges).flatten))) :=
  prev_results_prefix envW "q" 3 stepsW "two hops" 1 rfl (by decide)
    (fun a b => ⟨analysisW, rfl⟩) (by decide)

/-! ## Claim C9 -/

/-- C9 (amended): on the normal path and on the top-level exception path,
execution_time is the clock sampled at the end minus the clock sampled at
entry; on the plan-parse-failure path it is the constant 0 instead of the
elapsed time. -/
theorem execution_time_by_path (env : Env) (question : String) (m : Nat) :
    (process_complex_query env question m).execution_time
      = if planParseFailed env question then 0 else env.endTime - env.startTime := by
  rw [process_complex_query]
  unfold process_complex_queryT outerBody planParseFailed
  cases hp : env.planner question contextStr with
  | error e => simp [errorResult]
  | ok pr =>
    cases hpl : pr.plan with
    | error e =>
      simp only [hpl]
      simp [parseFailResult]
    | ok parsed =>
      simp only [hpl]
      unfold afterPlan
      cases hrun : runHopsFrom env.cypher_generator env.execute_cypher_step 0
          ((match parsed with | Json.arr xs => xs | _ => []).take m) emptyState with
      | error e =>
        simp only [hrun]
        simp [errorResult]
      | ok out =>
        cases hana : env.result_analyzer question
            (dumpResults out.1.all_nodes out.1.all_edges) with
        | error e =>
          simp only [hrun, hana]
          simp [errorResult]
        | ok analysis =>
          simp only [hrun, hana]
          simp [successResult]

/-- C9 counterexample: on the plan-parse-failure path the elapsed clock is
5 ticks but execution_time is the constant 0. -/
theorem parse_failure_time_zero_cx :
    (process_complex_query envC9 "q" 3).execution_time = 0 ∧
    envC9.endTime - envC9.startTime = 5 ∧
    (process_complex_query envC9 "q" 3).execution_time
      ≠ envC9.endTime - envC9.startTime := by
  exact ⟨rfl, rfl, by decide⟩

/-! ## Claim C10 -/

theorem genQueryList_length : ∀ logs : List StepLog,
    ((logs.map genQueryList).flatten).length
      = logs.countP (fun l => l.genResult.isSome) := by
  intro logs
  induction logs with
  | nil => rfl
  | cons l rest ih =>
    simp only [List.map_cons, List.flatten_cons, List.length_append, ih,
      List.countP_cons]
    cases hg : l.genResult with
    | none => simp [genQueryList, hg]
    | some g =>
      simp only [genQueryList, hg, List.length_cons, List.length_nil,
        Option.isSome_some, if_pos]
      omega

/-- C10: cypher_queries collects, in order, exactly the queries of the
steps whose generation succeeded (the query is appended before the backend
runs), so its length is the number of generation successes, independent of
backend failures. -/
theorem cypher_queries_gen_success (env : Env) (question : String) (m : Nat)
    (steps : List Json) (planR : String)
    (hp : env.planner question contextStr = Except.ok ⟨Except.ok (Json.arr steps), planR⟩)
    (hobj : ∀ s ∈ steps, s.isObj = true)
    (ha : AnalyzerOk env) :
    (process_complex_query env question m).cypher_queries
      = (((process_complex_queryT env question m).2).map genQueryList).flatten ∧
    (process_complex_query env question m).cypher_queries.length
      = ((process_complex_queryT env question m).2).countP
          (fun l => l.genResult.isSome) := by
  obtain ⟨st, hops2, logs, analysis, hrun, hana, hpt, inv⟩ :=
    processT_normal env question m steps planR hp hobj ha
  have hq : (process_complex_query env question m).cypher_queries = st.cypher_queries := by
    rw [process_complex_query, hpt]
    rfl
  have h2 := inv.queries_eq
  simp only [emptyState] at h2
  have hlogs : (process_complex_queryT env question m).2 = logs := by rw [hpt]
  constructor
  · rw [hq, hlogs]
    simp [h2]
  · rw [hq, hlogs, h2, List.nil_append]
    exact genQueryList_length logs

set_option maxRecDepth 4000 in
/-- C10 witness: one-step plan with a failing backend: the generated query
is in cypher_queries (length 1) although zero hops are error-free. -/
theorem cypher_queries_gen_success_witness :
    (process_complex_query envC10 "q" 1).cypher_queries
      = (((process_complex_queryT envC10 "q" 1).2).map genQueryList).flatten ∧
    (process_complex_query envC10 "q" 1).cypher_queries.length
      = ((process_complex_queryT envC10 "q" 1).2).countP
          (fun l => l.genResult.isSome) ∧
    (process_complex_query envC10 "q" 1).cypher_queries.length = 1 ∧
    (process_complex_query envC10 "q" 1).hops.countP
        (fun h => h.error.isNone) = 0 := by
  have h := cypher_queries_gen_success envC10 "q" 1 steps1W "one hop" rfl (by decide)
    (fun a b => ⟨analysisW, rfl⟩)
  exact ⟨h.1, h.2, rfl, rfl⟩
